import Mathlib

/-!
Shallow embedding of the LLaVA_XTuner adapter
(vlmeval/vlm/llava_xtuner.py): checkpoint-path resolution in the
constructor, generation-configuration merging, dataset-aware prompt
assembly in build_prompt, and the image-placeholder split in generate.

Row cells are modelled as an association list of column name to cell,
where a cell is either a string value or a missing (NaN) marker, mirroring
pandas rows and pd.isna.  The file system is modelled as a readability
predicate on paths; external collaborators of the repository that are not
part of the source file (cn_string, read_ok, decode_base64_to_image_file,
DATASET_TYPE, img_root_map) are modelled from the specification or taken
as abstract parameters, as noted on each definition.
-/

set_option autoImplicit false

/-- A cell of a pandas row: a string value or a missing (NaN) entry. -/
inductive Cell where
  | str (s : String)
  | na
deriving DecidableEq

/-- Whether an image row carries a single base64 image or a list of them,
mirroring the isinstance(line[image], list) test. -/
inductive ImageField where
  | single (b64 : String)
  | multi (imgs : List String)
deriving DecidableEq

/-- The paths returned in the image field of the prompt record. -/
inductive ImgPaths where
  | one (p : String)
  | list (ps : List String)
deriving DecidableEq

/-- An input row, with the fields build_prompt reads: the image payload,
the image_path filename list, the index, the question string, and the
remaining columns (hint, A..E, ...) as an association list. -/
structure Row where
  image : ImageField
  image_path : List String
  index : String
  question : String
  cells : List (String × Cell)
deriving DecidableEq

/-- Dictionary-style cell access: first binding of the key, mirroring
line[k] together with the test (k in line). -/
def getCell : List (String × Cell) → String → Option Cell
  | [], _ => none
  | (k2, v) :: rest, k => if k2 = k then some v else getCell rest k

/-- The fixed candidate letters of the option block. -/
def option_candidate : List String := ["A", "B", "C", "D", "E"]

/-- The comprehension body building the options dict: a letter contributes
iff its column is present and not NaN. -/
def option_fun (cells : List (String × Cell)) (cand : String) : Option (String × String) :=
  match getCell cells cand with
  | some (Cell.str s) => some (cand, s)
  | _ => none

/-- The options dict of build_prompt: insertion order follows the fixed
candidate list A..E, as in the Python dict comprehension. -/
def options (cells : List (String × Cell)) : List (String × String) :=
  option_candidate.filterMap (option_fun cells)

/-- One rendered option line, as appended by the loop body. -/
def option_line (kv : String × String) : String :=
  kv.1 ++ ". " ++ kv.2 ++ "\n"

/-- The rendered option lines, in dict (hence A..E) order. -/
def option_lines (cells : List (String × Cell)) : List String :=
  (options cells).map option_line

/-- The options_prompt string: header plus the accumulated option lines. -/
def options_prompt (cells : List (String × Cell)) : String :=
  "There are several options:\n" ++ String.join (option_lines cells)

/-- Whether a candidate column is present and non-missing. -/
def has_option (cells : List (String × Cell)) (cand : String) : Bool :=
  match getCell cells cand with
  | some (Cell.str _) => true
  | _ => false

/-- The text of a present option column (empty string otherwise). -/
def option_text (cells : List (String × Cell)) (cand : String) : String :=
  match getCell cells cand with
  | some (Cell.str s) => s
  | _ => ""

/-- The hint column when present and non-missing, as in
(hint in line and not pd.isna(line[hint])). -/
def hintOf (cells : List (String × Cell)) : Option String :=
  match getCell cells "hint" with
  | some (Cell.str h) => some h
  | _ => none

/-- Whether a character lies in the CJK unified ideograph block. -/
def is_cjk (c : Char) : Bool :=
  decide (0x4e00 ≤ c.toNat) && decide (c.toNat ≤ 0x9fff)

/-- Modelled from the spec: cn_string (vlmeval/smp.py, not under src/) is a
simple script-membership check, true iff the string contains at least one
CJK ideograph. -/
def cn_string (s : String) : Bool :=
  s.data.any is_cjk

/-- The English multiple-choice instruction suffix. -/
def english_suffix : String :=
  "Answer with the option\x27s letter from the given choices directly."

/-- The Chinese multiple-choice instruction suffix. -/
def chinese_suffix : String := "请直接回答选项字母。"

/-- The question text after optional hint prepending. -/
def mc_question (row : Row) : String :=
  match hintOf row.cells with
  | some h => h ++ " " ++ row.question
  | none => row.question

/-- The assembled multiple-choice prompt before the instruction suffix:
question (with hint) plus a space plus the options block. -/
def mc_prompt_base (row : Row) : String :=
  mc_question row ++ " " ++ options_prompt row.cells

/-- The full multiple-choice prompt: base plus the language-dependent
instruction suffix, mirroring the if not cn_string(prompt) branch. -/
def mc_prompt (row : Row) : String :=
  let p := mc_prompt_base row
  if !cn_string p then
    p ++ "\n" ++ english_suffix
  else
    p ++ "\n" ++ chinese_suffix

/-- The text field of build_prompt.  DATASET_TYPE (vlmeval/utils, not under
src/) is taken as an abstract collaborator dtyp from dataset name to type
string. -/
def build_prompt_text (dtyp : String → String) (row : Row)
    (dataset : Option String) : String :=
  match dataset with
  | some d => if dtyp d = "multi-choice" then mc_prompt row else row.question
  | none => row.question

/-- The file system, modelled as the set of readable paths. -/
abbrev FS := String → Bool

/-- Modelled from the spec: read_ok (vlmeval/smp.py, not under src/) checks
that the target file already exists and is verified readable. -/
def read_ok (fs : FS) (path : String) : Bool := fs path

/-- Modelled from the spec: decode_base64_to_image_file (vlmeval/smp.py,
not under src/) decodes the base64 payload and writes it at the target
path; in the file-system model the written path becomes readable. -/
def decode_base64_to_image_file (fs : FS) (_b64 : String) (path : String) : FS :=
  fun p => if p = path then true else fs p

/-- Target path of one (image, filename) pair in the list-image branch. -/
def tgt_of (root : String) (pr : String × String) : String :=
  root ++ "/" ++ pr.2

/-- One iteration of the list-image loop: state is (file system, paths
written so far, tgt_path accumulator). -/
def materialize_step (root : String) (st : FS × List String × List String)
    (pr : String × String) : FS × List String × List String :=
  let path := tgt_of root pr
  if read_ok st.1 path then
    (st.1, st.2.1, st.2.2 ++ [path])
  else
    (decode_base64_to_image_file st.1 pr.1 path, st.2.1 ++ [path], st.2.2 ++ [path])

/-- The image-materialization step of build_prompt: returns the new file
system, the list of paths written, and the image field of the result. -/
def build_prompt_images (fs : FS) (root : String) (row : Row) :
    FS × List String × ImgPaths :=
  match row.image with
  | ImageField.multi imgs =>
    let r := (imgs.zip row.image_path).foldl (materialize_step root) (fs, [], [])
    (r.1, r.2.1, ImgPaths.list r.2.2)
  | ImageField.single b64 =>
    let path := root ++ "/" ++ row.index ++ ".jpg"
    if read_ok fs path then
      (fs, [], ImgPaths.one path)
    else
      (decode_base64_to_image_file fs b64 path, [path], ImgPaths.one path)

/-- The dataset image root, osp.join of images and img_root_map[dataset].
img_root_map (vlmeval/utils, not under src/) is taken as an abstract total
collaborator from the dataset argument to a directory name. -/
def img_root (img_root_map : Option String → String) (dataset : Option String) : String :=
  "images/" ++ img_root_map dataset

/-- build_prompt: materializes the images, assembles the text, and returns
(new file system, written paths, image paths, text). -/
def build_prompt (dtyp : String → String) (img_root_map : Option String → String)
    (fs : FS) (row : Row) (dataset : Option String) :
    FS × List String × ImgPaths × String :=
  let root := img_root img_root_map dataset
  let r := build_prompt_images fs root row
  (r.1, r.2.1, r.2.2, build_prompt_text dtyp row dataset)

/-- The tokenizer ids the constructor reads. -/
structure Tokenizer where
  eos_token_id : Option Int
  pad_token_id : Option Int
deriving DecidableEq

/-- A generation-configuration value. -/
inductive GenVal where
  | natV (n : Nat)
  | boolV (b : Bool)
  | idV (i : Option Int)
deriving DecidableEq

/-- The kwargs_default dict of the constructor: max_new_tokens=100,
do_sample=False, eos/pad token ids derived from the tokenizer. -/
def kwargs_default (tok : Tokenizer) : List (String × GenVal) :=
  [("max_new_tokens", GenVal.natV 100),
   ("do_sample", GenVal.boolV false),
   ("eos_token_id", GenVal.idV tok.eos_token_id),
   ("pad_token_id", GenVal.idV
     (match tok.pad_token_id with
      | some p => some p
      | none => tok.eos_token_id))]

/-- Python dict lookup on an association list (keys unique in a dict, so
first match). -/
def dict_lookup : List (String × GenVal) → String → Option GenVal
  | [], _ => none
  | (k2, v) :: rest, k => if k2 = k then some v else dict_lookup rest k

/-- Python dict assignment d[k] = v: overwrite in place or append. -/
def dict_set : List (String × GenVal) → String → GenVal → List (String × GenVal)
  | [], k, v => [(k, v)]
  | (k2, v2) :: rest, k, v =>
    if k2 = k then (k2, v) :: rest else (k2, v2) :: dict_set rest k v

/-- Python dict.update: assign each binding of the argument in order. -/
def dict_update : List (String × GenVal) → List (String × GenVal) → List (String × GenVal)
  | d, [] => d
  | d, (k, v) :: rest => dict_update (dict_set d k v) rest

/-- The generation configuration contents: defaults, overlaid by the
caller kwargs when any were supplied. -/
def gen_config_kwargs (tok : Tokenizer) (kwargs : List (String × GenVal)) :
    List (String × GenVal) :=
  if 0 < kwargs.length then dict_update (kwargs_default tok) kwargs
  else kwargs_default tok

/-- The llm-path wiring of the constructor: bundled llm subdirectory
forbids an explicit path, its absence requires one. -/
def resolve_llm_path (listing : List String) (llava_path : String)
    (llm_path : Option String) : Except String String :=
  if "llm" ∈ listing then
    match llm_path with
    | some _ => Except.error "Please do not specify the llm_path since passed llava_path contains a LLM!"
    | none => Except.ok (llava_path ++ "/llm")
  else
    match llm_path with
    | some p => Except.ok p
    | none => Except.error "Please specify the llm_path!"

/-- The visual-encoder-path wiring of the constructor, symmetric to the
llm wiring. -/
def resolve_visual_encoder_path (listing : List String) (llava_path : String)
    (visual_encoder_path : Option String) : Except String String :=
  if "visual_encoder" ∈ listing then
    match visual_encoder_path with
    | some _ => Except.error "Please do not specify the visual_encoder_path since passed llava_path contains a visual encoder!"
    | none => Except.ok (llava_path ++ "/visual_encoder")
  else
    match visual_encoder_path with
    | some p => Except.ok p
    | none => Except.error "Please specify the visual_encoder_path!"

/-- The two path checks of the constructor in source order: the llm check
runs first, then the visual-encoder check. -/
def init_submodel_paths (listing : List String) (llava_path : String)
    (llm_path visual_encoder_path : Option String) :
    Except String (String × String) :=
  match resolve_llm_path listing llava_path llm_path with
  | Except.error e => Except.error e
  | Except.ok l =>
    match resolve_visual_encoder_path listing llava_path visual_encoder_path with
    | Except.error e => Except.error e
    | Except.ok v => Except.ok (l, v)

/-- Whether an Except value is an assertion failure. -/
def is_err {α : Type} : Except String α → Bool
  | Except.error _ => true
  | Except.ok _ => false

/-- Python str.split with a non-empty separator c0 :: sep, over character
lists: greedy leftmost, non-overlapping; the result has one part more
than there are separator occurrences. -/
def splitOnL (c0 : Char) (sep : List Char) : List Char → List (List Char)
  | [] => [[]]
  | c :: rest =>
    if (c0 :: sep).isPrefixOf (c :: rest) then
      [] :: splitOnL c0 sep (rest.drop sep.length)
    else
      (c :: (splitOnL c0 sep rest).headD []) :: (splitOnL c0 sep rest).tail
termination_by l => l.length
decreasing_by
  all_goals simp [List.length_drop]
  omega

/-- Count of greedy leftmost non-overlapping occurrences of the non-empty
pattern c0 :: sep. -/
def countOccL (c0 : Char) (sep : List Char) : List Char → Nat
  | [] => 0
  | c :: rest =>
    if (c0 :: sep).isPrefixOf (c :: rest) then
      countOccL c0 sep (rest.drop sep.length) + 1
    else
      countOccL c0 sep rest
termination_by l => l.length
decreasing_by
  all_goals simp [List.length_drop]
  omega

/-- Python str.replace of every occurrence of the non-empty pattern
p0 :: pat by repl, modelling str.format with the single field of the
xtuner instruction templates. -/
def replaceAllL (p0 : Char) (pat : List Char) (repl : List Char) :
    List Char → List Char
  | [] => []
  | c :: rest =>
    if (p0 :: pat).isPrefixOf (c :: rest) then
      repl ++ replaceAllL p0 pat repl (rest.drop pat.length)
    else
      c :: replaceAllL p0 pat repl rest
termination_by l => l.length
decreasing_by
  all_goals simp [List.length_drop]
  omega

/-- First character of DEFAULT_IMAGE_TOKEN. -/
def image_tok_head : Char := '<'

/-- Remaining characters of DEFAULT_IMAGE_TOKEN. -/
def image_tok_rest : List Char := "image>".data

/-- DEFAULT_IMAGE_TOKEN as a character list. -/
def image_tok : List Char := image_tok_head :: image_tok_rest

/-- The template INSTRUCTION format string applied to the composed input:
every occurrence of the input placeholder is replaced by the input. -/
def format_input (fmt : List Char) (inputs : List Char) : List Char :=
  replaceAllL '\x7b' "input\x7d".data inputs fmt

/-- The composed text of generate: image token, newline, prompt, then the
optional template wrapping. -/
def generate_inputs (template : Option (List Char)) (prompt : List Char) :
    List Char :=
  let inputs := image_tok ++ '\n' :: prompt
  match template with
  | some fmt => format_input fmt inputs
  | none => inputs

/-- The chunks of the composed text, split on DEFAULT_IMAGE_TOKEN. -/
def generate_chunks (template : Option (List Char)) (prompt : List Char) :
    List (List Char) :=
  splitOnL image_tok_head image_tok_rest (generate_inputs template prompt)

/-- The assertion assert len(chunk_encode) == 2 of generate: one encoded
chunk per split part. -/
def generate_assert_passes (template : Option (List Char)) (prompt : List Char) :
    Bool :=
  (generate_chunks template prompt).length == 2

/-- Concrete row of the end-to-end scenario: sky question with options A
and B only. -/
def sky_row : Row :=
  { image := ImageField.single "iVBOR",
    image_path := [],
    index := "0",
    question := "What color is the sky?",
    cells := [("A", Cell.str "Blue"), ("B", Cell.str "Green")] }

/-- Concrete cells with options A, B, C in source order. -/
def row_abc : List (String × Cell) :=
  [("A", Cell.str "alpha"), ("B", Cell.str "beta"), ("C", Cell.str "gamma")]

/-- The same cells with the columns permuted (C first) and an extra
question column. -/
def row_cba : List (String × Cell) :=
  [("C", Cell.str "gamma"), ("question", Cell.str "q"),
   ("B", Cell.str "beta"), ("A", Cell.str "alpha")]

/-- Concrete tokenizer for witnesses. -/
def tok_example : Tokenizer := { eos_token_id := some 2, pad_token_id := none }

/-- Concrete generation-option overrides for witnesses. -/
def kw_example : List (String × GenVal) := [("max_new_tokens", GenVal.natV 512)]

theorem string_append_left_cancel (s t u : String) (h : s ++ t = s ++ u) : t = u := by
  have h2 := congrArg String.data h
  simp only [String.data_append, List.append_cancel_left_eq] at h2
  exact String.ext h2

theorem filterMap_option_fun_eq_filter (cells : List (String × Cell)) (l : List String) :
    l.filterMap (option_fun cells) =
      (l.filter (has_option cells)).map (fun c => (c, option_text cells c)) := by
  induction l with
  | nil => rfl
  | cons c t ih =>
    cases h : getCell cells c with
    | none =>
      simp [List.filterMap_cons, List.filter_cons, option_fun, has_option, h, ih]
    | some cell =>
      cases cell <;>
        simp [List.filterMap_cons, List.filter_cons, option_fun, has_option,
          option_text, h, ih]

theorem option_fun_congr (cells cells2 : List (String × Cell)) (c : String)
    (h : getCell cells c = getCell cells2 c) :
    option_fun cells c = option_fun cells2 c := by
  simp [option_fun, h]

theorem splitOnL_length (c0 : Char) (sep : List Char) (s : List Char) :
    (splitOnL c0 sep s).length = countOccL c0 sep s + 1 := by
  induction s using splitOnL.induct c0 sep with
  | case1 => simp [splitOnL, countOccL]
  | case2 c rest hpre ih =>
    rw [splitOnL, countOccL, if_pos hpre, if_pos hpre]
    simp [ih]
  | case3 c rest hpre ih =>
    rw [splitOnL, countOccL, if_neg hpre, if_neg hpre]
    simp only [List.length_cons, List.length_tail]
    omega

theorem dict_lookup_eq_none_of_not_mem (d : List (String × GenVal)) (k : String)
    (h : k ∉ d.map Prod.fst) : dict_lookup d k = none := by
  induction d with
  | nil => rfl
  | cons p rest ih =>
    obtain ⟨k2, v⟩ := p
    simp only [List.map_cons, List.mem_cons] at h
    push_neg at h
    rw [dict_lookup, if_neg (fun hh => h.1 hh.symm)]
    exact ih h.2

theorem dict_lookup_dict_set (d : List (String × GenVal)) (k : String) (v : GenVal)
    (k' : String) :
    dict_lookup (dict_set d k v) k' = if k = k' then some v else dict_lookup d k' := by
  induction d with
  | nil =>
    by_cases h : k = k' <;> simp [dict_set, dict_lookup, h]
  | cons p rest ih =>
    obtain ⟨k2, v2⟩ := p
    by_cases h2 : k2 = k
    · subst h2
      by_cases h3 : k2 = k'
      · subst h3
        simp [dict_set, dict_lookup]
      · simp [dict_set, dict_lookup, h3, fun hh : k2 = k' => h3 hh]
    · by_cases h3 : k2 = k'
      · subst h3
        have hkk : ¬ (k = k2) := fun hh => h2 hh.symm
        simp [dict_set, dict_lookup, h2, hkk]
      · simp [dict_set, dict_lookup, h2, h3, ih]

theorem dict_lookup_dict_update (kw : List (String × GenVal)) :
    ∀ (d : List (String × GenVal)) (k : String),
      (kw.map Prod.fst).Nodup →
      dict_lookup (dict_update d kw) k =
        match dict_lookup kw k with
        | some v => some v
        | none => dict_lookup d k := by
  induction kw with
  | nil =>
    intro d k _
    rfl
  | cons p rest ih =>
    intro d k hnd
    obtain ⟨k0, v0⟩ := p
    simp only [List.map_cons, List.nodup_cons] at hnd
    rw [show dict_update d ((k0, v0) :: rest) = dict_update (dict_set d k0 v0) rest
      from rfl]
    rw [ih _ k hnd.2]
    by_cases h0 : k0 = k
    · subst h0
      have hre : dict_lookup rest k0 = none :=
        dict_lookup_eq_none_of_not_mem _ _ hnd.1
      simp [dict_lookup, hre, dict_lookup_dict_set]
    · cases hl : dict_lookup rest k with
      | some v => simp [dict_lookup, h0, hl]
      | none => simp [dict_lookup, h0, hl, dict_lookup_dict_set]

theorem materialize_step_eq (root : String) (st : FS × List String × List String)
    (pr : String × String) :
    materialize_step root st pr =
      if read_ok st.1 (tgt_of root pr) then
        (st.1, st.2.1, st.2.2 ++ [tgt_of root pr])
      else
        (decode_base64_to_image_file st.1 pr.1 (tgt_of root pr),
         st.2.1 ++ [tgt_of root pr], st.2.2 ++ [tgt_of root pr]) := rfl

theorem foldl_materialize_fs_mono (root : String) (l : List (String × String)) :
    ∀ (st : FS × List String × List String) (p : String), st.1 p = true →
      ((l.foldl (materialize_step root) st).1) p = true := by
  induction l with
  | nil =>
    intro st p h
    simpa using h
  | cons pr rest ih =>
    intro st p h
    simp only [List.foldl_cons]
    rw [materialize_step_eq]
    by_cases hr : read_ok st.1 (tgt_of root pr)
    · rw [if_pos hr]
      exact ih _ p h
    · rw [if_neg hr]
      refine ih _ p ?_
      show decode_base64_to_image_file st.1 pr.1 (tgt_of root pr) p = true
      by_cases hp : p = tgt_of root pr <;>
        simp [decode_base64_to_image_file, hp, h]

theorem foldl_materialize_reads (root : String) (l : List (String × String)) :
    ∀ (st : FS × List String × List String) (pr : String × String), pr ∈ l →
      ((l.foldl (materialize_step root) st).1) (tgt_of root pr) = true := by
  induction l with
  | nil =>
    intro st pr h
    simp at h
  | cons pr0 rest ih =>
    intro st pr h
    simp only [List.foldl_cons]
    rcases List.mem_cons.mp h with h1 | h1
    · subst h1
      rw [materialize_step_eq]
      by_cases hr : read_ok st.1 (tgt_of root pr)
      · rw [if_pos hr]
        exact foldl_materialize_fs_mono root rest _ _ hr
      · rw [if_neg hr]
        refine foldl_materialize_fs_mono root rest _ _ ?_
        show decode_base64_to_image_file st.1 pr.1 (tgt_of root pr) (tgt_of root pr) = true
        simp [decode_base64_to_image_file]
    · exact ih _ pr h1

theorem foldl_materialize_tgt (root : String) (l : List (String × String)) :
    ∀ (st : FS × List String × List String),
      (l.foldl (materialize_step root) st).2.2 = st.2.2 ++ l.map (tgt_of root) := by
  induction l with
  | nil =>
    intro st
    simp
  | cons pr rest ih =>
    intro st
    simp only [List.foldl_cons, List.map_cons]
    rw [materialize_step_eq]
    by_cases hr : read_ok st.1 (tgt_of root pr)
    · rw [if_pos hr, ih]
      simp
    · rw [if_neg hr, ih]
      simp

theorem foldl_materialize_no_write (root : String) (l : List (String × String)) :
    ∀ (st : FS × List String × List String),
      (∀ pr ∈ l, st.1 (tgt_of root pr) = true) →
      l.foldl (materialize_step root) st =
        (st.1, st.2.1, st.2.2 ++ l.map (tgt_of root)) := by
  induction l with
  | nil =>
    intro st _
    simp
  | cons pr0 rest ih =>
    intro st h
    simp only [List.foldl_cons, List.map_cons]
    rw [materialize_step_eq]
    have hr : read_ok st.1 (tgt_of root pr0) = true := h pr0 (List.mem_cons_self _ _)
    rw [if_pos hr, ih (st.1, st.2.1, st.2.2 ++ [tgt_of root pr0])
      (fun pr hpr => h pr (List.mem_cons_of_mem _ hpr))]
    simp

/-- Claim C1: for every checkpoint bundle directory listing, construction
fails with an assertion error exactly when the presence of the llm
subdirectory disagrees with the absence of an explicit llm_path, or the
presence of visual_encoder disagrees with the absence of an explicit
visual_encoder_path; in particular a bundle with llm and a non-None
llm_path fails, a bundle without llm and llm_path=None fails, and
symmetrically for visual_encoder. -/
theorem init_submodel_paths_err_iff (listing : List String) (llava_path : String)
    (lp vp : Option String) :
    is_err (init_submodel_paths listing llava_path lp vp) = true ↔
      ¬ ((("llm" ∈ listing) ↔ lp = none) ∧
         (("visual_encoder" ∈ listing) ↔ vp = none)) := by
  by_cases h1 : "llm" ∈ listing <;> by_cases h2 : "visual_encoder" ∈ listing <;>
    cases lp <;> cases vp <;>
      simp [init_submodel_paths, resolve_llm_path, resolve_visual_encoder_path,
        is_err, h1, h2]

/-- Claim C2: on the row with question What color is the sky, options A
Blue and B Green, no hint, under a dataset whose type is multi-choice,
build_prompt returns exactly the expected text, with literal newlines. -/
theorem build_prompt_sky_text (dtyp : String → String)
    (irm : Option String → String) (fs : FS) (d : String)
    (h : dtyp d = "multi-choice") :
    (build_prompt dtyp irm fs sky_row (some d)).2.2.2 =
      "What color is the sky? There are several options:\nA. Blue\nB. Green\n\nAnswer with the option\x27s letter from the given choices directly." := by
  show build_prompt_text dtyp sky_row (some d) = _
  simp only [build_prompt_text, h, if_pos]
  decide

theorem build_prompt_sky_text_witness :
    ((fun _ : String => "multi-choice") "MMBench" = "multi-choice") ∧
      (build_prompt (fun _ => "multi-choice") (fun _ => "MMBench")
        (fun _ => false) sky_row (some "MMBench")).2.2.2 =
      "What color is the sky? There are several options:\nA. Blue\nB. Green\n\nAnswer with the option\x27s letter from the given choices directly." :=
  ⟨rfl, build_prompt_sky_text _ _ _ _ rfl⟩

/-- Claim C3: the option block contains exactly one rendered line per
candidate letter A..E whose column is present and non-missing, those lines
in fixed A-to-E candidate order, and the block depends on the row only
through the cell lookups at A..E, hence not on input column order. -/
theorem build_prompt_option_lines (cells cells2 : List (String × Cell))
    (h : ∀ c ∈ option_candidate, getCell cells c = getCell cells2 c) :
    option_lines cells =
      (option_candidate.filter (has_option cells)).map
        (fun c => c ++ ". " ++ option_text cells c ++ "\n") ∧
    option_lines cells = option_lines cells2 := by
  constructor
  · rw [option_lines, options, filterMap_option_fun_eq_filter, List.map_map]
    rfl
  · rw [option_lines, options,
      List.filterMap_congr (fun c hc => option_fun_congr cells cells2 c (h c hc))]
    rfl

theorem build_prompt_option_lines_witness :
    (∀ c ∈ option_candidate, getCell row_abc c = getCell row_cba c) ∧
      (option_lines row_abc =
        (option_candidate.filter (has_option row_abc)).map
          (fun c => c ++ ". " ++ option_text row_abc c ++ "\n") ∧
       option_lines row_abc = option_lines row_cba) :=
  ⟨by decide, build_prompt_option_lines row_abc row_cba (by decide)⟩

/-- Claim C4: the tokenization step of generate passes its two-segment
assertion exactly when the composed text (image token, newline, prompt,
optionally template-wrapped) contains exactly one occurrence of the image
placeholder token; it fails in precisely the zero or several-occurrence
cases. -/
theorem generate_placeholder_assert (template : Option (List Char))
    (prompt : List Char) :
    generate_assert_passes template prompt = false ↔
      countOccL image_tok_head image_tok_rest
        (generate_inputs template prompt) ≠ 1 := by
  rw [generate_assert_passes, generate_chunks, splitOnL_length]
  simp only [beq_eq_false_iff_ne, ne_eq]
  omega

/-- Claim C5: with no overrides the generation configuration has
max_new_tokens 100 and do_sample False; with caller overrides, each
supplied key replaces the default binding key-by-key and every unsupplied
default binding is kept. -/
theorem gen_config_defaults_and_merge (tok : Tokenizer)
    (kwargs : List (String × GenVal)) (k : String)
    (hnd : (kwargs.map Prod.fst).Nodup) :
    dict_lookup (gen_config_kwargs tok []) "max_new_tokens" =
      some (GenVal.natV 100) ∧
    dict_lookup (gen_config_kwargs tok []) "do_sample" =
      some (GenVal.boolV false) ∧
    dict_lookup (gen_config_kwargs tok kwargs) k =
      match dict_lookup kwargs k with
      | some v => some v
      | none => dict_lookup (kwargs_default tok) k := by
  refine ⟨by simp [gen_config_kwargs, kwargs_default, dict_lookup],
    by simp [gen_config_kwargs, kwargs_default, dict_lookup], ?_⟩
  cases kwargs with
  | nil =>
    simp [gen_config_kwargs, dict_lookup]
  | cons p rest =>
    rw [show gen_config_kwargs tok (p :: rest) =
      dict_update (kwargs_default tok) (p :: rest) by simp [gen_config_kwargs]]
    exact dict_lookup_dict_update (p :: rest) (kwargs_default tok) k hnd

theorem gen_config_defaults_and_merge_witness :
    ((kw_example.map Prod.fst).Nodup) ∧
      (dict_lookup (gen_config_kwargs tok_example []) "max_new_tokens" =
        some (GenVal.natV 100) ∧
       dict_lookup (gen_config_kwargs tok_example []) "do_sample" =
        some (GenVal.boolV false) ∧
       dict_lookup (gen_config_kwargs tok_example kw_example) "max_new_tokens" =
        match dict_lookup kw_example "max_new_tokens" with
        | some v => some v
        | none => dict_lookup (kwargs_default tok_example) "max_new_tokens") :=
  ⟨by decide,
   gen_config_defaults_and_merge tok_example kw_example "max_new_tokens" (by decide)⟩

/-- Claim C6: on the multi-choice path, when the assembled prompt text
contains at least one CJK ideograph the Chinese instruction suffix is
appended, and when it contains none the English suffix is appended;
exactly one of the two cases holds for every row. -/
theorem mc_prompt_suffix_dichotomy (row : Row) :
    (mc_prompt row = mc_prompt_base row ++ "\n" ++ chinese_suffix ↔
      ∃ c ∈ (mc_prompt_base row).data, is_cjk c = true) ∧
    (mc_prompt row = mc_prompt_base row ++ "\n" ++ english_suffix ↔
      ¬ ∃ c ∈ (mc_prompt_base row).data, is_cjk c = true) := by
  have hne : english_suffix ≠ chinese_suffix := by decide
  cases hcs : cn_string (mc_prompt_base row) with
  | true =>
    have hex : ∃ c ∈ (mc_prompt_base row).data, is_cjk c = true := by
      simpa [cn_string, List.any_eq_true] using hcs
    have hform : mc_prompt row = mc_prompt_base row ++ "\n" ++ chinese_suffix := by
      simp [mc_prompt, hcs]
    refine ⟨⟨fun _ => hex, fun _ => hform⟩, ?_, fun hnex => absurd hex hnex⟩
    intro heq
    exfalso
    have h2 : mc_prompt_base row ++ "\n" ++ chinese_suffix =
        mc_prompt_base row ++ "\n" ++ english_suffix := hform ▸ heq
    exact hne (string_append_left_cancel _ _ _ h2).symm
  | false =>
    have hnex : ¬ ∃ c ∈ (mc_prompt_base row).data, is_cjk c = true := by
      simpa [cn_string, List.any_eq_true] using hcs
    have hform : mc_prompt row = mc_prompt_base row ++ "\n" ++ english_suffix := by
      simp [mc_prompt, hcs]
    refine ⟨⟨?_, fun hex => absurd hex hnex⟩, fun _ => hnex, fun _ => hform⟩
    intro heq
    exfalso
    have h2 : mc_prompt_base row ++ "\n" ++ english_suffix =
        mc_prompt_base row ++ "\n" ++ chinese_suffix := hform ▸ heq
    exact hne (string_append_left_cancel _ _ _ h2)

/-- Claim C7: build_prompt is idempotent with respect to the image cache:
run twice on the same row and dataset, the second call returns the same
image path or path list and performs no write, since every target path is
readable after the first call. -/
theorem build_prompt_image_idempotent (dtyp : String → String)
    (irm : Option String → String) (fs : FS) (row : Row)
    (dataset : Option String) :
    (build_prompt dtyp irm (build_prompt dtyp irm fs row dataset).1
        row dataset).2.2.1 =
      (build_prompt dtyp irm fs row dataset).2.2.1 ∧
    (build_prompt dtyp irm (build_prompt dtyp irm fs row dataset).1
        row dataset).2.1 = [] := by
  show (build_prompt_images (build_prompt_images fs (img_root irm dataset) row).1
      (img_root irm dataset) row).2.2 =
    (build_prompt_images fs (img_root irm dataset) row).2.2 ∧
    (build_prompt_images (build_prompt_images fs (img_root irm dataset) row).1
      (img_root irm dataset) row).2.1 = []
  obtain ⟨img, names, idx, q, cells⟩ := row
  cases img with
  | single b64 =>
    by_cases hr : read_ok fs (img_root irm dataset ++ "/" ++ idx ++ ".jpg")
    · constructor <;> simp [build_prompt_images, hr]
    · have hr2 : read_ok
          (decode_base64_to_image_file fs b64
            (img_root irm dataset ++ "/" ++ idx ++ ".jpg"))
          (img_root irm dataset ++ "/" ++ idx ++ ".jpg") = true := by
        simp [read_ok, decode_base64_to_image_file]
      constructor <;> simp [build_prompt_images, hr, hr2]
  | multi imgs =>
    have hreads : ∀ pr ∈ imgs.zip names,
        ((imgs.zip names).foldl (materialize_step (img_root irm dataset))
          ((fs, [], []) : FS × List String × List String)).1
          (tgt_of (img_root irm dataset) pr) = true :=
      fun pr hpr => foldl_materialize_reads _ _ _ pr hpr
    have hsecond := foldl_materialize_no_write (img_root irm dataset)
      (imgs.zip names)
      (((imgs.zip names).foldl (materialize_step (img_root irm dataset))
          ((fs, [], []) : FS × List String × List String)).1, [], [])
      (fun pr hpr => hreads pr hpr)
    constructor
    · simp only [build_prompt_images]
      rw [hsecond, foldl_materialize_tgt]
    · simp only [build_prompt_images]
      rw [hsecond]

/-- Claim C8: when the dataset argument is None or names a dataset whose
type is not multi-choice, the text field of build_prompt is the raw
question, unmodified. -/
theorem build_prompt_text_non_mc (dtyp : String → String)
    (irm : Option String → String) (fs : FS) (row : Row)
    (dataset : Option String)
    (h : ∀ d, dataset = some d → dtyp d ≠ "multi-choice") :
    (build_prompt dtyp irm fs row dataset).2.2.2 = row.question := by
  show build_prompt_text dtyp row dataset = _
  cases dataset with
  | none => rfl
  | some d => simp [build_prompt_text, h d rfl]

theorem build_prompt_text_non_mc_witness :
    (∀ d, (none : Option String) = some d →
      (fun _ : String => "caption") d ≠ "multi-choice") ∧
    (build_prompt (fun _ => "caption") (fun _ => "r") (fun _ => false)
      sky_row none).2.2.2 = sky_row.question :=
  ⟨fun _ hd => (nomatch hd),
   build_prompt_text_non_mc _ _ _ _ _ (fun _ hd => (nomatch hd))⟩

/-- Claim C9: in the list-image case the returned path list follows the
elementwise zip of the image list with the image_path list, so its length
is the minimum of the two list lengths and surplus entries of the longer
list are dropped without error. -/
theorem build_prompt_image_list_min_length (dtyp : String → String)
    (irm : Option String → String) (fs : FS) (imgs names : List String)
    (idx q : String) (cells : List (String × Cell)) (dataset : Option String) :
    (build_prompt dtyp irm fs
        { image := ImageField.multi imgs, image_path := names, index := idx,
          question := q, cells := cells } dataset).2.2.1 =
      ImgPaths.list ((imgs.zip names).map (tgt_of (img_root irm dataset))) ∧
    ((imgs.zip names).map (tgt_of (img_root irm dataset))).length =
      min imgs.length names.length := by
  constructor
  · show (build_prompt_images fs (img_root irm dataset) _).2.2 = _
    simp only [build_prompt_images]
    rw [foldl_materialize_tgt]
    simp
  · rw [List.length_map, List.length_zip]

/-- Claim C10: in the default generation configuration the pad token id is
the tokenizer pad token id when that is defined and otherwise falls back
to the tokenizer eos token id, and the eos token id is the tokenizer eos
token id. -/
theorem gen_config_token_ids (tok : Tokenizer) :
    dict_lookup (gen_config_kwargs tok []) "pad_token_id" =
      some (GenVal.idV
        (match tok.pad_token_id with
         | some p => some p
         | none => tok.eos_token_id)) ∧
    dict_lookup (gen_config_kwargs tok []) "eos_token_id" =
      some (GenVal.idV tok.eos_token_id) := by
  constructor <;> simp [gen_config_kwargs, kwargs_default, dict_lookup]
